import Mathlib

/-!
Formal model of the vibettp HTTP server core.

Strings from the Rust source are modelled as lists of Unicode code points
(`List Nat`); byte buffers from the wire are lists of byte values
(`List Nat`, each below 256).  Filesystem paths are lists of path
components.  The canonicalization of the root directory and the
filesystem read are external effects and are passed in as parameters, so
that every definition stays executable.
-/

namespace Vibettp

/-- Code points of a string literal, used to transcribe the string
constants appearing in the Rust source. -/
def strCp (s : String) : List Nat :=
  s.data.map Char.toNat

/-- Substring containment test, as in Rust str contains and in the
windows-of-4 search of the framing loop: some suffix of the haystack has
the pattern as a prefix. -/
def containsSub (pat : List Nat) : List Nat → Bool
  | [] => pat.isEmpty
  | c :: rest => pat.isPrefixOf (c :: rest) || containsSub pat rest

/-- Split a list at every occurrence of the separator; n separators give
n + 1 segments. -/
def splitSep (sep : Nat) : List Nat → List (List Nat)
  | [] => [[]]
  | c :: rest =>
    let r := splitSep sep rest
    if c = sep then [] :: r
    else
      match r with
      | [] => [[c]]
      | h :: t => (c :: h) :: t

/-- Remove one trailing carriage return, as Rust str lines does on each
newline-terminated segment. -/
def stripCr (l : List Nat) : List Nat :=
  if l.getLast? = some 13 then l.dropLast else l

/-- Rust str lines: split at newline, strip one carriage return before
each newline, and do not produce a final empty segment for a trailing
newline. -/
def linesOf (s : List Nat) : List (List Nat) :=
  if s.isEmpty then []
  else
    match (splitSep 10 s).reverse with
    | [] => []
    | lastSeg :: revInit =>
      let terminated := (revInit.reverse).map stripCr
      if lastSeg.isEmpty then terminated else terminated ++ [lastSeg]

/-- The Unicode white-space code points recognized by Rust char
is_whitespace. -/
def isWs (c : Nat) : Bool :=
  c = 9 || c = 10 || c = 11 || c = 12 || c = 13 || c = 32 ||
  c = 0x85 || c = 0xA0 || c = 0x1680 ||
  (0x2000 ≤ c && c ≤ 0x200A) ||
  c = 0x2028 || c = 0x2029 || c = 0x202F || c = 0x205F || c = 0x3000

/-- Helper for whitespace splitting; the accumulator holds the current
token reversed. -/
def splitWsAux (acc : List Nat) : List Nat → List (List Nat)
  | [] => if acc.isEmpty then [] else [acc.reverse]
  | c :: rest =>
    if isWs c then
      if acc.isEmpty then splitWsAux [] rest
      else acc.reverse :: splitWsAux [] rest
    else splitWsAux (c :: acc) rest

/-- Rust str split_whitespace: maximal runs of non-whitespace, no empty
tokens. -/
def splitWs (l : List Nat) : List (List Nat) :=
  splitWsAux [] l

/-- Continuation byte test for UTF-8 decoding. -/
def isCont (b : Nat) : Bool := 0x80 ≤ b && b ≤ 0xBF

/-- Lower bound of the first continuation byte of a three-byte sequence
(the 0xE0 row excludes overlong encodings). -/
def cont2Lo (b : Nat) : Nat := if b = 0xE0 then 0xA0 else 0x80

/-- Upper bound of the first continuation byte of a three-byte sequence
(the 0xED row excludes surrogates). -/
def cont2Hi (b : Nat) : Nat := if b = 0xED then 0x9F else 0xBF

/-- Lower bound of the first continuation byte of a four-byte sequence
(the 0xF0 row excludes overlong encodings). -/
def cont3Lo (b : Nat) : Nat := if b = 0xF0 then 0x90 else 0x80

/-- Upper bound of the first continuation byte of a four-byte sequence
(the 0xF4 row caps code points at 0x10FFFF). -/
def cont3Hi (b : Nat) : Nat := if b = 0xF4 then 0x8F else 0xBF

/-- Fueled strict UTF-8 decoder, following the validity table used by
Rust std str from_utf8. -/
def utf8DecodeAux : Nat → List Nat → Option (List Nat)
  | _, [] => some []
  | 0, _ :: _ => none
  | fuel + 1, b :: bs =>
    if b ≤ 0x7F then
      (utf8DecodeAux fuel bs).map (fun r => b :: r)
    else if 0xC2 ≤ b && b ≤ 0xDF then
      match bs with
      | b1 :: bs1 =>
        if isCont b1 then
          (utf8DecodeAux fuel bs1).map
            (fun r => ((b - 0xC0) * 0x40 + (b1 - 0x80)) :: r)
        else none
      | [] => none
    else if 0xE0 ≤ b && b ≤ 0xEF then
      match bs with
      | b1 :: b2 :: bs2 =>
        if (cont2Lo b ≤ b1 && b1 ≤ cont2Hi b) && isCont b2 then
          (utf8DecodeAux fuel bs2).map
            (fun r => ((b - 0xE0) * 0x1000 + (b1 - 0x80) * 0x40 + (b2 - 0x80)) :: r)
        else none
      | _ => none
    else if 0xF0 ≤ b && b ≤ 0xF4 then
      match bs with
      | b1 :: b2 :: b3 :: bs3 =>
        if ((cont3Lo b ≤ b1 && b1 ≤ cont3Hi b) && isCont b2) && isCont b3 then
          (utf8DecodeAux fuel bs3).map
            (fun r => ((b - 0xF0) * 0x40000 + (b1 - 0x80) * 0x1000 +
                       (b2 - 0x80) * 0x40 + (b3 - 0x80)) :: r)
        else none
      | _ => none
    else none

/-- Strict UTF-8 decoding of a byte buffer into code points; fails
exactly when Rust std str from_utf8 fails. -/
def utf8Decode (bs : List Nat) : Option (List Nat) :=
  utf8DecodeAux bs.length bs

/-- Fueled decimal digit printer. -/
def natDigitsAux : Nat → Nat → List Nat
  | 0, _ => []
  | fuel + 1, n =>
    if n < 10 then [48 + n]
    else natDigitsAux fuel (n / 10) ++ [48 + n % 10]

/-- ASCII decimal digits of a natural number, used for the status code
and the Content-Length value of a response. -/
def natDigits (n : Nat) : List Nat :=
  natDigitsAux (n + 1) n

/-- The status codes of src response.rs. -/
inductive HTTPStatus where
  | ok
  | badRequest
  | notFound
  | methodNotAllowed
  | requestTimeout
  | contentTooLarge
  | serviceUnavailable
deriving DecidableEq

/-- Numeric value of each status, matching the repr u16 enum of
src response.rs. -/
def HTTPStatus.code : HTTPStatus → Nat
  | .ok => 200
  | .badRequest => 400
  | .notFound => 404
  | .methodNotAllowed => 405
  | .requestTimeout => 408
  | .contentTooLarge => 413
  | .serviceUnavailable => 503

/-- build_response of src response.rs: the format string
HTTP-slash-1.1 code reason, Content-Length, Content-Type, blank line,
body.  The reason phrase and content type are ASCII string constants;
the body is kept as raw bytes, and its Content-Length is its byte
length, exactly as body.len() is in Rust. -/
def build_response (status : HTTPStatus) (reason ct body : List Nat) : List Nat :=
  strCp "HTTP/1.1 " ++ natDigits status.code ++ [32] ++ reason ++ [13, 10] ++
  strCp "Content-Length: " ++ natDigits body.length ++ [13, 10] ++
  strCp "Content-Type: " ++ ct ++ [13, 10, 13, 10] ++ body

/-- handlers home of src handlers.rs. -/
def handlers_home : List Nat :=
  build_response .ok (strCp "OK") (strCp "text/html") (strCp "<h1>Welcome home!</h1>")

/-- handlers about of src handlers.rs. -/
def handlers_about : List Nat :=
  build_response .ok (strCp "OK") (strCp "text/html") (strCp "<h1>About us</h1>")

/-- handlers file of src handlers.rs: a 200 response around a served
body. -/
def handlers_file (body : List Nat) : List Nat :=
  build_response .ok (strCp "OK") (strCp "text/html") body

/-- handlers bad_request of src handlers.rs. -/
def handlers_bad_request : List Nat :=
  build_response .badRequest (strCp "Bad Request") (strCp "text/plain") (strCp "400 Bad Request")

/-- handlers not_found of src handlers.rs. -/
def handlers_not_found : List Nat :=
  build_response .notFound (strCp "Not Found") (strCp "text/plain") (strCp "404 Not Found")

/-- handlers method_not_allowed of src handlers.rs. -/
def handlers_method_not_allowed : List Nat :=
  build_response .methodNotAllowed (strCp "Method Not Allowed") (strCp "text/plain")
    (strCp "405 Method Not Allowed")

/-- handlers request_timeout of src handlers.rs. -/
def handlers_request_timeout : List Nat :=
  build_response .requestTimeout (strCp "Request Timeout") (strCp "text/plain")
    (strCp "408 Request Timeout")

/-- handlers content_too_large of src handlers.rs. -/
def handlers_content_too_large : List Nat :=
  build_response .contentTooLarge (strCp "Content Too Large") (strCp "text/plain")
    (strCp "413 Content Too Large")

/-- handlers service_unavailable of src handlers.rs. -/
def handlers_service_unavailable : List Nat :=
  build_response .serviceUnavailable (strCp "Service Unavailable") (strCp "text/plain")
    (strCp "503 Service Unavailable")

/-- The Config struct of src config.rs; the root directory is kept as a
raw string, its canonical form being supplied separately to the parts
that consume it. -/
structure Config where
  root_directory : List Nat
  keep_alive : Bool
  timeout_seconds : Nat
  max_clients : Nat
  bind_address : List Nat
  port : Nat

/-- The Request struct of src request.rs, together with the keep-alive
flag that src winsock.rs reads as req.keep_alive.  The first three
fields are parsed by parse_request in src request.rs.  The keep_alive
field is referenced by the caller in src winsock.rs but absent from the
struct in src request.rs, so its derivation is modelled from the spec
(see keepAliveOf). -/
structure Request where
  method : List Nat
  path : List Nat
  version : List Nat
  keep_alive : Bool
deriving DecidableEq

/-- Lower-case an ASCII letter code point. -/
def lowerAscii (c : Nat) : Nat :=
  if 65 ≤ c && c ≤ 90 then c + 32 else c

/-- Drop surrounding ASCII blanks from a header fragment. -/
def trimBlanks (l : List Nat) : List Nat :=
  ((l.dropWhile (fun c => c = 32 || c = 9)).reverse.dropWhile (fun c => c = 32 || c = 9)).reverse

/-- Modelled from the spec: the scan of the remaining header lines for a
connection-control header, which is missing from parse_request in
src request.rs although src winsock.rs reads its result as
req.keep_alive.  Returns the value of the first header line whose name,
ASCII-lowercased and trimmed, is connection. -/
def connValue? : List (List Nat) → Option (List Nat)
  | [] => none
  | l :: ls =>
    if l.contains 58 &&
        trimBlanks ((l.takeWhile (fun c => ¬ c = 58)).map lowerAscii) = strCp "connection" then
      some (trimBlanks (((l.dropWhile (fun c => ¬ c = 58)).drop 1).map lowerAscii))
    else connValue? ls

/-- Modelled from the spec: the keep-alive flag derivation missing from
src request.rs.  An explicit keep-alive value gives true, an explicit
close gives false, and an absent (or other) value defaults by protocol
version: HTTP 1.1 defaults to true, anything else to false. -/
def keepAliveOf (headers : List (List Nat)) (version : List Nat) : Bool :=
  match connValue? headers with
  | some v =>
    if v = strCp "keep-alive" then true
    else if v = strCp "close" then false
    else decide (version = strCp "HTTP/1.1")
  | none => decide (version = strCp "HTTP/1.1")

/-- The header block: lines after the request line up to the first
blank line. -/
def headerBlock (ls : List (List Nat)) : List (List Nat) :=
  ls.takeWhile (fun l => ¬ l.isEmpty)

/-- parse_request of src request.rs: decode the whole buffer as UTF-8
(failure rejects), take the first line, split it on whitespace, and
take the first three tokens as method, path and version; fewer than
three tokens or no first line rejects.  The keep_alive field is the
spec-modelled derivation keepAliveOf over the header block. -/
def parse_request (buffer : List Nat) : Option Request :=
  match utf8Decode buffer with
  | none => none
  | some s =>
    match linesOf s with
    | [] => none
    | requestLine :: rest =>
      match splitWs requestLine with
      | m :: p :: v :: _ =>
        some { method := m, path := p, version := v,
               keep_alive := keepAliveOf (headerBlock rest) v }
      | _ => none

/-- trim_start_matches of the slash character, as applied to the URL
path in sanitize_path of src util.rs.  Rust trim_start_matches removes
every leading occurrence of the pattern. -/
def trimLeadingSlashes (l : List Nat) : List Nat :=
  l.dropWhile (fun c => c = 47)

/-- Path components of a relative path string: split at slashes, with
empty segments and lone-dot segments normalized away, as Rust Path
components does alongside a join with an absolute base. -/
def pathComponents (l : List Nat) : List (List Nat) :=
  (splitSep 47 l).filter (fun seg => ¬ seg.isEmpty && ¬ seg = [46])

/-- The lexical normalization computed in sanitize_path of src util.rs:
components of the canonical base joined with the cleaned relative
path. -/
def normalizedJoin (base : List (List Nat)) (url : List Nat) : List (List Nat) :=
  base ++ pathComponents (trimLeadingSlashes url)

/-- sanitize_path of src util.rs.  The canonicalization of the
configured root directory is an external filesystem effect; its outcome
is the canonRoot parameter, none when canonicalization fails.  The
blacklist check on the raw URL path comes first, before the root is
even canonicalized; then the cleaned relative path is joined to the
base and the component-wise starts_with check decides acceptance. -/
def sanitize_path (canonRoot : Option (List (List Nat))) (url : List Nat) :
    Option (List (List Nat)) :=
  if containsSub (strCp "..") url || url.contains 92 || url.contains 0 then none
  else
    match canonRoot with
    | none => none
    | some base =>
      let normalized := normalizedJoin base url
      if base.isPrefixOf normalized then some normalized else none

/-- MAX_REQUEST_SIZE of src winsock.rs. -/
def MAX_REQUEST_SIZE : Nat := 8196

/-- The four-byte header terminator searched for by the framing loop. -/
def headerTerminator : List Nat := [13, 10, 13, 10]

/-- The route table built in run_server of src winsock.rs: the exact
paths slash and slash-about map to the home and about handlers. -/
def routes (path : List Nat) : Option (List Nat) :=
  if path = strCp "/" then some handlers_home
  else if path = strCp "/about" then some handlers_about
  else none

/-- Whether the client loop of src winsock.rs continues with another
request on the same connection or breaks out. -/
inductive NextStep where
  | cont
  | close
deriving DecidableEq

/-- The keep-alive gate at the bottom of the client loop in
src winsock.rs: break unless server-level keep-alive is enabled and the
request asked to keep the connection alive. -/
def gate (cfg : Config) (requested : Bool) : NextStep :=
  if cfg.keep_alive && requested then .cont else .close

/-- The dispatching part of run_server in src winsock.rs, acting on a
parsed request: the method gate, the route lookup, and the static-file
fallback through sanitize_path and a filesystem read.  The filesystem
read is an external effect passed in as fsRead.  A file that reads but
is not valid UTF-8 has its body replaced by the fixed placeholder text,
as the unwrap_or in src winsock.rs does.  The sanitizer-rejection
branch answers 400 and then continues the client loop directly. -/
def dispatchReq (cfg : Config) (canonRoot : Option (List (List Nat)))
    (fsRead : List (List Nat) → Option (List Nat)) (req : Request) :
    List (List Nat) × NextStep :=
  if ¬ req.method = strCp "GET" && ¬ req.method = strCp "POST" then
    ([handlers_method_not_allowed], .close)
  else
    match routes req.path with
    | some resp => ([resp], gate cfg req.keep_alive)
    | none =>
      match sanitize_path canonRoot req.path with
      | some safe =>
        match fsRead safe with
        | some contents =>
          let body :=
            if (utf8Decode contents).isSome then contents
            else strCp "Invalid UTF-8 in file"
          ([handlers_file body], gate cfg req.keep_alive)
        | none => ([handlers_not_found], gate cfg req.keep_alive)
      | none => ([handlers_bad_request], .cont)

/-- One iteration of the client loop after framing: parse the
accumulated bytes and dispatch.  Parse failure sends nothing and, with
the keep-alive request flag still false, falls through the gate and
closes. -/
def dispatch (cfg : Config) (canonRoot : Option (List (List Nat)))
    (fsRead : List (List Nat) → Option (List Nat)) (data : List Nat) :
    List (List Nat) × NextStep :=
  match parse_request data with
  | some req => dispatchReq cfg canonRoot fsRead req
  | none => ([], .close)

/-- Network events observed by the inner read loop of src winsock.rs:
a select timeout, a select error, data arriving at a time point, or the
peer closing at a time point.  Times are absolute seconds, compared
against the start instant recorded by the handler. -/
inductive NetEvent where
  | selTimeout
  | selError
  | bytes (t : Nat) (chunk : List Nat)
  | peerClosed (t : Nat)

/-- Outcome of the inner read loop of src winsock.rs for one framing
attempt. -/
inductive FrameOutcome where
  | timedOut
  | selectFailed
  | pastDeadline
  | closedByPeer
  | tooLarge
  | framed (data : List Nat)

/-- The inner read loop of src winsock.rs: wait for readiness (a
timeout answers 408 and exits, an error exits), check the elapsed time
against the configured timeout using the start instant, receive a
chunk (a nonpositive receive answers 400 and exits), append it to the
accumulator, answer 413 when the accumulator reaches
MAX_REQUEST_SIZE, and stop framing when the four-byte terminator
appears anywhere in the accumulator.  Returns the outcome and the
unconsumed events, or none when the event script runs out. -/
def readLoop (cfg : Config) (start : Nat) (acc : List Nat) :
    List NetEvent → Option (FrameOutcome × List NetEvent)
  | [] => none
  | e :: rest =>
    match e with
    | .selTimeout => some (.timedOut, rest)
    | .selError => some (.selectFailed, rest)
    | .peerClosed t =>
      if cfg.timeout_seconds < t - start then some (.pastDeadline, rest)
      else some (.closedByPeer, rest)
    | .bytes t chunk =>
      if cfg.timeout_seconds < t - start then some (.pastDeadline, rest)
      else if MAX_REQUEST_SIZE ≤ (acc ++ chunk).length then some (.tooLarge, rest)
      else if containsSub headerTerminator (acc ++ chunk) then some (.framed (acc ++ chunk), rest)
      else readLoop cfg start (acc ++ chunk) rest

/-- How a connection run ends: closed, closed after a half-close of the
write side, or the event script ran out with the connection still
open. -/
inductive ConnEnd where
  | closed
  | closedHalf
  | scriptEnded
deriving DecidableEq

/-- Fueled form of the client loop of src winsock.rs.  Each iteration
resets the accumulator, frames a request under the deadline derived
from the fixed start instant, sends the responses the code sends on
each outcome, and either continues with the remaining events or stops.
The start instant is taken once and never changes across iterations,
exactly as start_time is set before the loop in src winsock.rs. -/
def clientLoopF (cfg : Config) (canonRoot : Option (List (List Nat)))
    (fsRead : List (List Nat) → Option (List Nat)) (start : Nat) :
    Nat → List NetEvent → List (List Nat) × ConnEnd
  | 0, _ => ([], .scriptEnded)
  | fuel + 1, events =>
    match readLoop cfg start [] events with
    | none => ([], .scriptEnded)
    | some (.timedOut, _) => ([handlers_request_timeout], .closed)
    | some (.selectFailed, _) => ([], .closed)
    | some (.pastDeadline, _) => ([], .closed)
    | some (.closedByPeer, _) => ([handlers_bad_request], .closed)
    | some (.tooLarge, _) => ([handlers_content_too_large], .closedHalf)
    | some (.framed data, rest) =>
      let p := dispatch cfg canonRoot fsRead data
      match p.2 with
      | .close => (p.1, .closed)
      | .cont =>
        let r := clientLoopF cfg canonRoot fsRead start fuel rest
        (p.1 ++ r.1, r.2)

/-- The client loop of src winsock.rs over a finite event script; the
script length bounds the number of iterations, since every framing
consumes at least one event. -/
def clientLoop (cfg : Config) (canonRoot : Option (List (List Nat)))
    (fsRead : List (List Nat) → Option (List Nat)) (start : Nat)
    (events : List NetEvent) : List (List Nat) × ConnEnd :=
  clientLoopF cfg canonRoot fsRead start events.length events

/-- Externally visible effects of one connection handler, in order. -/
inductive Effect where
  | send (bytes : List Nat)
  | shutdownSend
  | closeSocket
  | decrementActive
deriving DecidableEq

/-- The whole handler thread body of src winsock.rs: run the client
loop, half-close the write side when the loop broke out on an oversized
request, then close the socket and decrement the active-client counter
once, at the single cleanup point after the loop. -/
def handlerEffects (cfg : Config) (canonRoot : Option (List (List Nat)))
    (fsRead : List (List Nat) → Option (List Nat)) (start : Nat)
    (events : List NetEvent) : List Effect :=
  let r := clientLoop cfg canonRoot fsRead start events
  r.1.map Effect.send ++
  (match r.2 with
   | .closedHalf => [Effect.shutdownSend]
   | _ => []) ++
  [Effect.closeSocket, Effect.decrementActive]

/-- The admission check of run_server in src winsock.rs: read the
current count; at or above the ceiling, send 503 and drop the
connection without incrementing or spawning; below it, increment and
admit.  The count is modelled as an integer so that staying nonnegative
is a meaningful statement about the unsigned atomic counter. -/
def admissionStep (maxClients : Nat) (count : Int) :
    Int × Option (List Nat) × Bool :=
  if (maxClients : Int) ≤ count then (count, some handlers_service_unavailable, false)
  else (count + 1, none, true)

/-- Connection lifecycle events at the accept loop: a new connection
arriving, or an admitted handler finishing. -/
inductive ConnEvent where
  | connect
  | finish
deriving DecidableEq

/-- One lifecycle step over the pair of the shared counter and the
number of admitted handlers still running: a connect goes through the
admission check; a finish is the terminal decrement of a handler. -/
def lifecycleStep (maxClients : Nat) (s : Int × Nat) : ConnEvent → Int × Nat
  | .connect =>
    let a := admissionStep maxClients s.1
    (a.1, if a.2.2 then s.2 + 1 else s.2)
  | .finish => (s.1 - 1, s.2 - 1)

/-- A lifecycle event list is valid from a state when every finish is
performed by one of the handlers still running. -/
def validSteps (maxClients : Nat) (s : Int × Nat) : List ConnEvent → Bool
  | [] => true
  | .connect :: evs => validSteps maxClients (lifecycleStep maxClients s .connect) evs
  | .finish :: evs =>
    if s.2 = 0 then false
    else validSteps maxClients (lifecycleStep maxClients s .finish) evs

/-- Run a lifecycle event list from a state. -/
def runLifecycle (maxClients : Nat) (s : Int × Nat) (evs : List ConnEvent) : Int × Nat :=
  evs.foldl (lifecycleStep maxClients) s

/-- A sample configuration with keep-alive enabled, matching the
config.toml shape consumed by src config.rs. -/
def cfgKA : Config :=
  { root_directory := strCp "public", keep_alive := true, timeout_seconds := 5,
    max_clients := 4, bind_address := strCp "127.0.0.1", port := 7878 }

/-- The sample configuration with keep-alive disabled. -/
def cfgNoKA : Config := { cfgKA with keep_alive := false }

/-- A sample canonical root, as a component list. -/
def root0 : List (List Nat) := [strCp "home", strCp "public"]

/-- A filesystem on which every read fails. -/
def fs0 : List (List Nat) → Option (List Nat) := fun _ => none

/-- A filesystem holding one file whose single byte 255 is not valid
UTF-8. -/
def fsBad : List (List Nat) → Option (List Nat) :=
  fun p => if p = [strCp "home", strCp "public", strCp "f.bin"] then some [255] else none

/-- Occurrence count of an effect in an effect list. -/
def countEff (e : Effect) : List Effect → Nat
  | [] => 0
  | x :: l => (if x = e then 1 else 0) + countEff e l

/-- A chunk of exactly MAX_REQUEST_SIZE filler bytes with no header
terminator. -/
def bigChunkA : List Nat := List.replicate 8196 65

/-- A chunk of exactly MAX_REQUEST_SIZE minus one bytes ending in the
header terminator. -/
def bigChunkB : List Nat := List.replicate 8191 65 ++ headerTerminator

/-- A well-formed keep-alive request for the home route, as bytes. -/
def reqHomeKA : List Nat := strCp "GET / HTTP/1.1\r\nConnection: keep-alive\r\n\r\n"

/-- A request whose path carries a parent-directory reference. -/
def reqTraversal : List Nat := strCp "GET /../x HTTP/1.1\r\n\r\n"

/-- A request for the about route asking to close the connection. -/
def reqAboutClose : List Nat := strCp "GET /about HTTP/1.1\r\nConnection: close\r\n\r\n"

/-- The same request line with a keep-alive connection header. -/
def reqAboutKA : List Nat := strCp "GET /about HTTP/1.1\r\nConnection: keep-alive\r\n\r\n"

/-- A request for a static file outside the route table. -/
def reqFBin : List Nat := strCp "GET /f.bin HTTP/1.1\r\n\r\n"

theorem containsSub_append_pat (pat xs : List Nat) (h : containsSub pat pat = true) :
    containsSub pat (xs ++ pat) = true := by
  induction xs with
  | nil => simpa using h
  | cons x xs ih =>
    rw [List.cons_append]
    show (pat.isPrefixOf (x :: (xs ++ pat)) || containsSub pat (xs ++ pat)) = true
    rw [ih, Bool.or_true]

theorem length_dropWhile_le (p : Nat → Bool) (l : List Nat) :
    (l.dropWhile p).length ≤ l.length := by
  induction l with
  | nil => simp
  | cons c cs ih =>
    by_cases h : p c = true
    · simp only [List.dropWhile, h, List.length_cons]; omega
    · simp [List.dropWhile, h]

/-- Claim C8 (amended): before joining to the canonical root, the
sanitizer strips every leading path separator from the raw URL path,
not exactly one: the original path is some run of slashes followed by
the cleaned path, and the cleaned path never starts with a slash. -/
theorem trim_slash_strips_all (url : List Nat) :
    url = List.replicate (url.length - (trimLeadingSlashes url).length) 47 ++
      trimLeadingSlashes url ∧
    (∀ c rest, trimLeadingSlashes url = c :: rest → ¬ c = 47) := by
  induction url with
  | nil => simp [trimLeadingSlashes]
  | cons c cs ih =>
    by_cases hc : c = 47
    · subst hc
      have hdw : trimLeadingSlashes (47 :: cs) = trimLeadingSlashes cs := by
        simp [trimLeadingSlashes, List.dropWhile]
      have hlen : (trimLeadingSlashes cs).length ≤ cs.length :=
        length_dropWhile_le _ _
      constructor
      · have hstep : (47 :: cs).length - (trimLeadingSlashes (47 :: cs)).length =
            (cs.length - (trimLeadingSlashes cs).length) + 1 := by
          rw [hdw]; simp only [List.length_cons]; omega
        rw [hstep, hdw, List.replicate_succ, List.cons_append]
        exact congrArg (47 :: ·) ih.1
      · intro d rest hr
        exact ih.2 d rest (hdw ▸ hr)
    · have hdw : trimLeadingSlashes (c :: cs) = c :: cs := by
        simp [trimLeadingSlashes, List.dropWhile, hc]
      constructor
      · rw [hdw]; simp
      · intro d rest hr
        rw [hdw] at hr
        cases hr
        exact hc

theorem readLoop_nil (cfg : Config) (start : Nat) (acc : List Nat) :
    readLoop cfg start acc [] = none := rfl

theorem clientLoop_tooLarge (cfg : Config) (canonRoot : Option (List (List Nat)))
    (fsRead : List (List Nat) → Option (List Nat)) (start : Nat)
    (events : List NetEvent) (rest : List NetEvent)
    (h : readLoop cfg start [] events = some (.tooLarge, rest)) :
    clientLoop cfg canonRoot fsRead start events =
      ([handlers_content_too_large], .closedHalf) := by
  cases events with
  | nil => simp [readLoop_nil] at h
  | cons e es =>
    simp only [clientLoop, List.length_cons, clientLoopF, h]

theorem lifecycle_inv (maxClients : Nat) :
    ∀ (evs : List ConnEvent) (s : Int × Nat), s.1 = (s.2 : Int) →
      validSteps maxClients s evs = true →
      (runLifecycle maxClients s evs).1 = ((runLifecycle maxClients s evs).2 : Int) := by
  intro evs
  induction evs with
  | nil => intro s hs _; simpa [runLifecycle] using hs
  | cons e evs ih =>
    intro s hs hv
    have hrun : runLifecycle maxClients s (e :: evs) =
        runLifecycle maxClients (lifecycleStep maxClients s e) evs := by
      simp [runLifecycle]
    cases e with
    | connect =>
      have hv2 : validSteps maxClients (lifecycleStep maxClients s .connect) evs = true := by
        simpa [validSteps] using hv
      have hinv : (lifecycleStep maxClients s .connect).1 =
          ((lifecycleStep maxClients s .connect).2 : Int) := by
        simp only [lifecycleStep, admissionStep]
        split
        · simpa using hs
        · simp only; push_cast; omega
      rw [hrun]
      exact ih _ hinv hv2
    | finish =>
      have hne : ¬ s.2 = 0 := by
        intro h0
        simp [validSteps, h0] at hv
      have hv2 : validSteps maxClients (lifecycleStep maxClients s .finish) evs = true := by
        simpa [validSteps, hne] using hv
      have hinv : (lifecycleStep maxClients s .finish).1 =
          ((lifecycleStep maxClients s .finish).2 : Int) := by
        simp only [lifecycleStep]
        have h1 : 1 ≤ s.2 := Nat.one_le_iff_ne_zero.mpr hne
        push_cast [Nat.cast_sub h1]
        omega
      rw [hrun]
      exact ih _ hinv hv2

theorem countEff_append (e : Effect) (a b : List Effect) :
    countEff e (a ++ b) = countEff e a + countEff e b := by
  induction a with
  | nil => simp [countEff]
  | cons x xs ih => simp [countEff, ih]; omega

theorem countEff_map_send (l : List (List Nat)) :
    countEff Effect.decrementActive (l.map Effect.send) = 0 := by
  induction l with
  | nil => rfl
  | cons x xs ih => simpa [countEff] using ih

theorem getLast?_append_two (l : List Effect) (a b : Effect) :
    (l ++ [a, b]).getLast? = some b := by
  induction l with
  | nil => rfl
  | cons x xs ih =>
    cases hx : xs ++ [a, b] with
    | nil => exact absurd hx (by simp)
    | cons y ys =>
      rw [List.cons_append, hx, List.getLast?_cons_cons, ← hx, ih]

theorem dispatchReq_fst_flag (cfg : Config) (canonRoot : Option (List (List Nat)))
    (fsRead : List (List Nat) → Option (List Nat)) (m p v : List Nat) (k1 k2 : Bool) :
    (dispatchReq cfg canonRoot fsRead ⟨m, p, v, k1⟩).1 =
      (dispatchReq cfg canonRoot fsRead ⟨m, p, v, k2⟩).1 := by
  simp only [dispatchReq]
  split
  · rfl
  · split
    · rfl
    · split
      · split
        · rfl
        · rfl
      · rfl

/-- Witness for claim C8: on the path slash-x, the stripped run has
length one and the first remaining code point is x, not a slash. -/
theorem trim_slash_strips_all_witness :
    strCp "/x" = List.replicate ((strCp "/x").length -
      (trimLeadingSlashes (strCp "/x")).length) 47 ++ trimLeadingSlashes (strCp "/x") ∧
    ¬ (120 : Nat) = 47 :=
  ⟨(trim_slash_strips_all (strCp "/x")).1,
   (trim_slash_strips_all (strCp "/x")).2 120 [] (by decide)⟩

/-- Counterexample for claim C8 as stated: a path beginning with two
separators loses both, not just one; trim_start_matches strips every
leading slash. -/
theorem trim_slash_counterexample :
    trimLeadingSlashes (strCp "//about.html") = strCp "about.html" ∧
    ¬ trimLeadingSlashes (strCp "//about.html") = strCp "/about.html" := by
  decide

/-- Claim C1: every accepted URL path yields exactly the lexical
normalization of the canonical root joined with the cleaned relative
path, and the root components are a prefix of its components; an input
whose normalized result does not extend the canonical root is
rejected. -/
theorem sanitize_path_confines_to_root (base : List (List Nat)) (url : List Nat) :
    (∀ p, sanitize_path (some base) url = some p →
      p = normalizedJoin base url ∧ base.isPrefixOf p = true) ∧
    (base.isPrefixOf (normalizedJoin base url) = false →
      sanitize_path (some base) url = none) := by
  constructor
  · intro p hp
    simp only [sanitize_path] at hp
    split at hp
    · exact absurd hp (by simp)
    · split at hp
      · rename_i hpre
        cases hp
        exact ⟨rfl, hpre⟩
      · exact absurd hp (by simp)
  · intro hnp
    simp only [sanitize_path]
    split
    · rfl
    · rw [if_neg]
      simp [hnp]

/-- Witness for claim C1: the path slash-about.html is accepted and the
result extends the sample root by one component. -/
theorem sanitize_path_confines_witness :
    sanitize_path (some root0) (strCp "/about.html") =
      some [strCp "home", strCp "public", strCp "about.html"] ∧
    root0.isPrefixOf [strCp "home", strCp "public", strCp "about.html"] = true :=
  ⟨by decide,
   ((sanitize_path_confines_to_root root0 (strCp "/about.html")).1
     [strCp "home", strCp "public", strCp "about.html"] (by decide)).2⟩

/-- Claim C2: a URL path containing a parent-directory reference, a
backslash or a null byte is rejected whatever the canonicalization of
the root returned, hence before and independently of any filesystem
access. -/
theorem sanitize_path_blacklist_rejects (url : List Nat)
    (canonRoot : Option (List (List Nat)))
    (h : containsSub (strCp "..") url = true ∨ url.contains 92 = true ∨
      url.contains 0 = true) :
    sanitize_path canonRoot url = none := by
  have hc : (containsSub (strCp "..") url || url.contains 92 || url.contains 0) = true := by
    rcases h with h | h | h
    · simp [h]
    · have hm : 92 ∈ url := by simpa using h
      simp [hm]
    · have hm : 0 ∈ url := by simpa using h
      simp [hm]
  simp only [sanitize_path, hc, if_true]

/-- Witness for claim C2: the classic traversal path is rejected with
the sample root present. -/
theorem sanitize_path_blacklist_witness :
    sanitize_path (some root0) (strCp "/../secret") = none :=
  sanitize_path_blacklist_rejects (strCp "/../secret") (some root0) (Or.inl (by decide))

/-- Claim C9: the request parser rejects a buffer that does not decode
as UTF-8, rejects a first line with fewer than three whitespace tokens,
and on success its method, path and version are exactly the first three
whitespace tokens of the first line, the path taken verbatim. -/
theorem parse_request_tokens (buffer : List Nat) :
    (utf8Decode buffer = none → parse_request buffer = none) ∧
    (∀ s l ls, utf8Decode buffer = some s → linesOf s = l :: ls →
      (splitWs l).length < 3 → parse_request buffer = none) ∧
    (∀ req, parse_request buffer = some req →
      ∃ s l ls rest, utf8Decode buffer = some s ∧ linesOf s = l :: ls ∧
        splitWs l = req.method :: req.path :: req.version :: rest) := by
  refine ⟨?_, ?_, ?_⟩
  · intro h
    simp [parse_request, h]
  · intro s l ls hs hl hlen
    simp only [parse_request, hs, hl]
    cases hw : splitWs l with
    | nil => rfl
    | cons m t1 =>
      cases t1 with
      | nil => rfl
      | cons p t2 =>
        cases t2 with
        | nil => rfl
        | cons v t3 =>
          rw [hw] at hlen
          exact absurd hlen (by simp)
  · intro req h
    cases hd : utf8Decode buffer with
    | none => simp [parse_request, hd] at h
    | some s =>
      cases hl : linesOf s with
      | nil => simp [parse_request, hd, hl] at h
      | cons l ls =>
        cases hw : splitWs l with
        | nil => simp [parse_request, hd, hl, hw] at h
        | cons m t1 =>
          cases t1 with
          | nil => simp [parse_request, hd, hl, hw] at h
          | cons p t2 =>
            cases t2 with
            | nil => simp [parse_request, hd, hl, hw] at h
            | cons v rest =>
              simp only [parse_request, hd, hl, hw] at h
              cases h
              exact ⟨s, l, ls, rest, rfl, hl, hw⟩

/-- Witness for claim C9: an invalid byte rejects, and a well-formed
request line tokenizes into its three parts. -/
theorem parse_request_tokens_witness :
    parse_request [255] = none ∧
    (∃ s l ls rest, utf8Decode (strCp "GET /a HTTP/1.1\r\n\r\n") = some s ∧
      linesOf s = l :: ls ∧
      splitWs l = strCp "GET" :: strCp "/a" :: strCp "HTTP/1.1" :: rest) :=
  ⟨(parse_request_tokens [255]).1 (by decide),
   (parse_request_tokens (strCp "GET /a HTTP/1.1\r\n\r\n")).2.2
     { method := strCp "GET", path := strCp "/a", version := strCp "HTTP/1.1",
       keep_alive := true }
     (by decide)⟩

/-- Claim C5: a read that brings the accumulator to exactly
MAX_REQUEST_SIZE while the terminator has not yet been seen makes the
framing loop answer 413, and the handler then sends the 413 response
and half-closes the write side; one byte fewer with the terminator
present frames the request, which is dispatched normally. -/
theorem request_size_cap_boundary (cfg : Config) (canonRoot : Option (List (List Nat)))
    (fsRead : List (List Nat) → Option (List Nat)) (start t : Nat)
    (acc chunk : List Nat) (evs : List NetEvent) :
    (t - start ≤ cfg.timeout_seconds → (acc ++ chunk).length = MAX_REQUEST_SIZE →
      containsSub headerTerminator acc = false →
      readLoop cfg start acc (NetEvent.bytes t chunk :: evs) =
        some (FrameOutcome.tooLarge, evs)) ∧
    (∀ evs2 rest, readLoop cfg start [] evs2 = some (FrameOutcome.tooLarge, rest) →
      clientLoop cfg canonRoot fsRead start evs2 =
        ([handlers_content_too_large], ConnEnd.closedHalf)) ∧
    (t - start ≤ cfg.timeout_seconds → chunk.length = MAX_REQUEST_SIZE - 1 →
      containsSub headerTerminator chunk = true →
      readLoop cfg start [] [NetEvent.bytes t chunk] =
        some (FrameOutcome.framed chunk, []) ∧
      (clientLoop cfg canonRoot fsRead start [NetEvent.bytes t chunk]).1 =
        (dispatch cfg canonRoot fsRead chunk).1) := by
  refine ⟨?_, ?_, ?_⟩
  · intro h1 h2 _
    simp only [readLoop]
    rw [if_neg (by omega), if_pos (by omega)]
  · intro evs2 rest h
    exact clientLoop_tooLarge cfg canonRoot fsRead start evs2 rest h
  · intro h1 h2 h3
    have hsz : ¬ MAX_REQUEST_SIZE ≤ ([] ++ chunk).length := by
      simp only [List.nil_append]
      simp only [MAX_REQUEST_SIZE] at h2 ⊢
      omega
    have hframe : readLoop cfg start [] [NetEvent.bytes t chunk] =
        some (FrameOutcome.framed chunk, []) := by
      simp only [readLoop]
      rw [if_neg (by omega), if_neg hsz, if_pos (by simpa using h3)]
      simp
    refine ⟨hframe, ?_⟩
    simp only [clientLoop, List.length_cons, List.length_nil, clientLoopF, hframe]
    cases hnext : (dispatch cfg canonRoot fsRead chunk).2 with
    | close => simp [hnext]
    | cont => simp [hnext, clientLoopF]

/-- Witness for claim C5: with the sample configuration, a lone
maximum-size chunk is answered 413 while a chunk one byte shorter
ending in the terminator is framed. -/
theorem request_size_cap_boundary_witness :
    readLoop cfgKA 0 [] [NetEvent.bytes 1 bigChunkA] = some (FrameOutcome.tooLarge, []) ∧
    readLoop cfgKA 0 [] [NetEvent.bytes 1 bigChunkB] =
      some (FrameOutcome.framed bigChunkB, []) := by
  constructor
  · have h := (request_size_cap_boundary cfgKA none fs0 0 1 [] bigChunkA []).1
    refine h (by decide) ?_ (by decide)
    simp only [List.nil_append, bigChunkA, List.length_replicate, MAX_REQUEST_SIZE]
  · have h := (request_size_cap_boundary cfgKA none fs0 0 1 [] bigChunkB []).2.2
    refine (h (by decide) ?_
      (containsSub_append_pat headerTerminator (List.replicate 8191 65) (by decide))).1
    simp only [bigChunkB, headerTerminator, List.length_append, List.length_replicate,
      List.length_cons, List.length_nil, MAX_REQUEST_SIZE]

/-- Claim C6: evaluation exhibiting the missing per-request deadline
reset.  With a five-second timeout, a connection whose first request
arrives at second three is served and kept alive, but its second
request arriving at second seven is aborted without a response because
the elapsed check still uses the connection start instant; the very
same bytes at second seven are served on a handler whose start instant
is second four. -/
theorem deadline_not_recomputed_across_requests :
    clientLoop cfgKA (some root0) fs0 0
      [NetEvent.bytes 3 reqHomeKA, NetEvent.bytes 7 reqHomeKA] =
      ([handlers_home], ConnEnd.closed) ∧
    clientLoop cfgKA (some root0) fs0 4 [NetEvent.bytes 7 reqHomeKA] =
      ([handlers_home], ConnEnd.scriptEnded) := by
  decide

/-- Counterexample for claim C4 as stated: with server-level keep-alive
disabled, a request whose path is rejected by the sanitizer gets a 400
response and the connection is nevertheless reused for a second
request, because that branch continues the client loop without
consulting the keep-alive gate. -/
theorem keepalive_gate_bypassed_on_reject :
    cfgNoKA.keep_alive = false ∧
    clientLoop cfgNoKA (some root0) fs0 0
      [NetEvent.bytes 1 reqTraversal, NetEvent.bytes 2 reqTraversal] =
      ([handlers_bad_request, handlers_bad_request], ConnEnd.scriptEnded) := by
  decide

/-- Claim C4 (amended): the connection-control header sets the
keep-alive flag (keep-alive gives true, close gives false, absent
defaults by version), and after a response the connection is reused
exactly when server keep-alive and the request flag both hold — except
that the sanitizer-rejection 400 branch always continues, bypassing the
gate. -/
theorem keepalive_decision_amended (cfg : Config)
    (canonRoot : Option (List (List Nat)))
    (fsRead : List (List Nat) → Option (List Nat)) (req : Request)
    (hm : req.method = strCp "GET" ∨ req.method = strCp "POST") :
    (((routes req.path).isSome = true ∨
        (sanitize_path canonRoot req.path).isSome = true) →
      (dispatchReq cfg canonRoot fsRead req).2 = gate cfg req.keep_alive) ∧
    (routes req.path = none → sanitize_path canonRoot req.path = none →
      (dispatchReq cfg canonRoot fsRead req).2 = NextStep.cont) ∧
    (gate cfg req.keep_alive = NextStep.cont ↔
      (cfg.keep_alive = true ∧ req.keep_alive = true)) ∧
    (∀ headers v, connValue? headers = some (strCp "keep-alive") →
      keepAliveOf headers v = true) ∧
    (∀ headers v, connValue? headers = some (strCp "close") →
      keepAliveOf headers v = false) ∧
    (∀ headers v, connValue? headers = none →
      keepAliveOf headers v = decide (v = strCp "HTTP/1.1")) := by
  have hprop : ¬ (¬ req.method = strCp "GET" ∧ ¬ req.method = strCp "POST") := by
    rcases hm with h | h
    · exact fun hc => hc.1 h
    · exact fun hc => hc.2 h
  refine ⟨?_, ?_, ?_, ?_, ?_, ?_⟩
  · intro hsome
    cases hr : routes req.path with
    | some resp => simp [dispatchReq, hprop, hr]
    | none =>
      rcases hsome with hs | hs
      · rw [hr] at hs
        exact absurd hs (by simp)
      · cases hsan : sanitize_path canonRoot req.path with
        | none =>
          rw [hsan] at hs
          exact absurd hs (by simp)
        | some safe =>
          cases hf : fsRead safe with
          | some contents => simp [dispatchReq, hprop, hr, hsan, hf]
          | none => simp [dispatchReq, hprop, hr, hsan, hf]
  · intro hr hsan
    simp [dispatchReq, hprop, hr, hsan]
  · cases hA : cfg.keep_alive <;> cases hB : req.keep_alive <;> simp [gate, hA, hB]
  · intro headers v h
    simp [keepAliveOf, h]
  · intro headers v h
    simp [keepAliveOf, h, strCp]
  · intro headers v h
    simp [keepAliveOf, h]

/-- Witness for claim C4: a route-table hit follows the gate, and an
explicit close header turns the flag off. -/
theorem keepalive_decision_witness :
    (dispatchReq cfgKA (some root0) fs0
      { method := strCp "GET", path := strCp "/", version := strCp "HTTP/1.1",
        keep_alive := true }).2 = gate cfgKA true ∧
    keepAliveOf [strCp "Connection: close"] (strCp "HTTP/1.1") = false :=
  ⟨(keepalive_decision_amended cfgKA (some root0) fs0
      { method := strCp "GET", path := strCp "/", version := strCp "HTTP/1.1",
        keep_alive := true } (Or.inl (by decide))).1 (Or.inl (by decide)),
   (keepalive_decision_amended cfgKA (some root0) fs0
      { method := strCp "GET", path := strCp "/", version := strCp "HTTP/1.1",
        keep_alive := true } (Or.inl (by decide))).2.2.2.2.1
     [strCp "Connection: close"] (strCp "HTTP/1.1") (by decide)⟩

/-- Counterexample for claim C7 as stated: a confined file that reads
successfully but is not valid UTF-8 is served with the fixed
placeholder text as body, not with the file bytes. -/
theorem file_body_not_raw_bytes :
    (dispatch cfgKA (some root0) fsBad reqFBin).1 =
      [handlers_file (strCp "Invalid UTF-8 in file")] ∧
    ¬ handlers_file (strCp "Invalid UTF-8 in file") = handlers_file [255] := by
  decide

/-- Claim C7 (amended): on a route miss the path is sanitized and the
file read; a successful read yields a 200 whose body is the file bytes
when they are valid UTF-8 and the fixed placeholder otherwise; a
confined path that fails to read yields 404; a sanitizer rejection
yields 400, which differs from the 404 response. -/
theorem static_file_dispatch_amended (cfg : Config)
    (canonRoot : Option (List (List Nat)))
    (fsRead : List (List Nat) → Option (List Nat)) (data : List Nat) (req : Request)
    (hp : parse_request data = some req)
    (hm : req.method = strCp "GET" ∨ req.method = strCp "POST")
    (hr : routes req.path = none) :
    (∀ p contents, sanitize_path canonRoot req.path = some p →
      fsRead p = some contents →
      (dispatch cfg canonRoot fsRead data).1 =
        [handlers_file (if (utf8Decode contents).isSome then contents
                        else strCp "Invalid UTF-8 in file")]) ∧
    (∀ p, sanitize_path canonRoot req.path = some p → fsRead p = none →
      (dispatch cfg canonRoot fsRead data).1 = [handlers_not_found]) ∧
    (sanitize_path canonRoot req.path = none →
      (dispatch cfg canonRoot fsRead data).1 = [handlers_bad_request]) ∧
    ¬ handlers_bad_request = handlers_not_found := by
  have hprop : ¬ (¬ req.method = strCp "GET" ∧ ¬ req.method = strCp "POST") := by
    rcases hm with h | h
    · exact fun hc => hc.1 h
    · exact fun hc => hc.2 h
  refine ⟨?_, ?_, ?_, by decide⟩
  · intro p contents hsan hf
    simp [dispatch, hp, dispatchReq, hprop, hr, hsan, hf]
  · intro p hsan hf
    simp [dispatch, hp, dispatchReq, hprop, hr, hsan, hf]
  · intro hsan
    simp [dispatch, hp, dispatchReq, hprop, hr, hsan]

/-- Witness for claim C7: the sample filesystem serves its one file
through the placeholder branch and rejects a missing file with 404. -/
theorem static_file_dispatch_witness :
    (dispatch cfgKA (some root0) fsBad reqFBin).1 =
      [handlers_file (if (utf8Decode [255]).isSome then [255]
                      else strCp "Invalid UTF-8 in file")] ∧
    (dispatch cfgKA (some root0) fs0 reqFBin).1 = [handlers_not_found] :=
  ⟨(static_file_dispatch_amended cfgKA (some root0) fsBad reqFBin
      { method := strCp "GET", path := strCp "/f.bin", version := strCp "HTTP/1.1",
        keep_alive := true }
      (by decide) (Or.inl (by decide)) (by decide)).1
      [strCp "home", strCp "public", strCp "f.bin"] [255] (by decide) (by decide),
   (static_file_dispatch_amended cfgKA (some root0) fs0 reqFBin
      { method := strCp "GET", path := strCp "/f.bin", version := strCp "HTTP/1.1",
        keep_alive := true }
      (by decide) (Or.inl (by decide)) (by decide)).2.1
      [strCp "home", strCp "public", strCp "f.bin"] (by decide) (by decide)⟩

/-- Counterexample for claim C10 as stated: two buffers that are valid
UTF-8, under the size cap and identical in their first line but
differing in the connection header produce identical response bytes yet
opposite keep-alive decisions. -/
theorem headers_affect_keepalive_counterexample :
    utf8Decode reqAboutClose = some reqAboutClose ∧
    utf8Decode reqAboutKA = some reqAboutKA ∧
    (linesOf reqAboutClose).head? = (linesOf reqAboutKA).head? ∧
    reqAboutClose.length < MAX_REQUEST_SIZE ∧
    reqAboutKA.length < MAX_REQUEST_SIZE ∧
    (dispatch cfgKA (some root0) fs0 reqAboutClose).1 =
      (dispatch cfgKA (some root0) fs0 reqAboutKA).1 ∧
    ¬ (dispatch cfgKA (some root0) fs0 reqAboutClose).2 =
      (dispatch cfgKA (some root0) fs0 reqAboutKA).2 := by
  decide

/-- Claim C10 (amended): for two decodable buffers with identical first
lines the produced response bytes coincide, and the whole dispatch
outcome, keep-alive decision included, coincides whenever the derived
connection flags also coincide; header lines can influence nothing but
that flag. -/
theorem first_line_determines_response (cfg : Config)
    (canonRoot : Option (List (List Nat)))
    (fsRead : List (List Nat) → Option (List Nat)) (d1 d2 s1 s2 : List Nat)
    (h1 : utf8Decode d1 = some s1) (h2 : utf8Decode d2 = some s2)
    (hfl : (linesOf s1).head? = (linesOf s2).head?) :
    (dispatch cfg canonRoot fsRead d1).1 = (dispatch cfg canonRoot fsRead d2).1 ∧
    (∀ r1 r2, parse_request d1 = some r1 → parse_request d2 = some r2 →
      r1.keep_alive = r2.keep_alive →
      dispatch cfg canonRoot fsRead d1 = dispatch cfg canonRoot fsRead d2) := by
  cases hl1 : linesOf s1 with
  | nil =>
    cases hl2 : linesOf s2 with
    | nil =>
      constructor
      · simp [dispatch, parse_request, h1, h2, hl1, hl2]
      · intro r1 r2 hr1 hr2 _
        simp [parse_request, h1, hl1] at hr1
    | cons l2 t2 =>
      rw [hl1, hl2] at hfl
      simp at hfl
  | cons l1 t1 =>
    cases hl2 : linesOf s2 with
    | nil =>
      rw [hl1, hl2] at hfl
      simp at hfl
    | cons l2 t2 =>
      rw [hl1, hl2] at hfl
      simp only [List.head?_cons, Option.some_inj] at hfl
      subst hfl
      cases hw : splitWs l1 with
      | nil =>
        constructor
        · simp [dispatch, parse_request, h1, h2, hl1, hl2, hw]
        · intro r1 r2 hr1 hr2 _
          simp [parse_request, h1, hl1, hw] at hr1
      | cons m rest1 =>
        cases rest1 with
        | nil =>
          constructor
          · simp [dispatch, parse_request, h1, h2, hl1, hl2, hw]
          · intro r1 r2 hr1 hr2 _
            simp [parse_request, h1, hl1, hw] at hr1
        | cons p rest2 =>
          cases rest2 with
          | nil =>
            constructor
            · simp [dispatch, parse_request, h1, h2, hl1, hl2, hw]
            · intro r1 r2 hr1 hr2 _
              simp [parse_request, h1, hl1, hw] at hr1
          | cons v rest3 =>
            have e1 : parse_request d1 =
                some { method := m, path := p, version := v,
                       keep_alive := keepAliveOf (headerBlock t1) v } := by
              simp [parse_request, h1, hl1, hw]
            have e2 : parse_request d2 =
                some { method := m, path := p, version := v,
                       keep_alive := keepAliveOf (headerBlock t2) v } := by
              simp [parse_request, h2, hl2, hw]
            constructor
            · simp only [dispatch, e1, e2]
              exact dispatchReq_fst_flag cfg canonRoot fsRead m p v _ _
            · intro r1 r2 hr1 hr2 hk
              rw [e1, Option.some_inj] at hr1
              rw [e2, Option.some_inj] at hr2
              subst hr1
              subst hr2
              have hcongr := congrArg
                (fun b => dispatchReq cfg canonRoot fsRead
                  { method := m, path := p, version := v, keep_alive := b }) hk
              simpa [dispatch, e1, e2] using hcongr

/-- Witness for claim C10: the two about-route buffers of the
counterexample have equal response bytes by the amended theorem. -/
theorem first_line_determines_response_witness :
    (dispatch cfgKA (some root0) fs0 reqAboutClose).1 =
      (dispatch cfgKA (some root0) fs0 reqAboutKA).1 :=
  (first_line_determines_response cfgKA (some root0) fs0 reqAboutClose reqAboutKA
    reqAboutClose reqAboutKA (by decide) (by decide) (by decide)).1

/-- Claim C3: over every valid lifecycle trace the shared counter stays
nonnegative and equals the number of admitted handlers still running;
at or above the ceiling an arriving connection gets the 503 bytes with
no increment and no handler; below it the counter is incremented and
the connection admitted; and every handler run performs the terminal
decrement exactly once, as its final effect, on every exit path. -/
theorem active_count_invariant (maxClients : Nat) (evs : List ConnEvent) :
    (validSteps maxClients (0, 0) evs = true →
      0 ≤ (runLifecycle maxClients (0, 0) evs).1 ∧
      (runLifecycle maxClients (0, 0) evs).1 =
        ((runLifecycle maxClients (0, 0) evs).2 : Int)) ∧
    (∀ count : Int, (maxClients : Int) ≤ count →
      admissionStep maxClients count =
        (count, some handlers_service_unavailable, false)) ∧
    (∀ count : Int, count < (maxClients : Int) →
      admissionStep maxClients count = (count + 1, none, true)) ∧
    (∀ cfg canonRoot fsRead start events,
      countEff Effect.decrementActive
        (handlerEffects cfg canonRoot fsRead start events) = 1 ∧
      (handlerEffects cfg canonRoot fsRead start events).getLast? =
        some Effect.decrementActive) := by
  refine ⟨?_, ?_, ?_, ?_⟩
  · intro hv
    have h := lifecycle_inv maxClients evs (0, 0) (by simp) hv
    exact ⟨h ▸ Int.natCast_nonneg _, h⟩
  · intro count hc
    simp [admissionStep, hc]
  · intro count hc
    simp [admissionStep, not_le.mpr hc]
  · intro cfg canonRoot fsRead start events
    constructor
    · simp only [handlerEffects]
      rw [countEff_append, countEff_append, countEff_map_send]
      cases h2 : (clientLoop cfg canonRoot fsRead start events).2 <;> simp [countEff]
    · simp only [handlerEffects]
      exact getLast?_append_two _ _ _

/-- Witness for claim C3: with ceiling one, a trace of two arrivals and
one finish keeps the counter nonnegative, the second arrival is refused
with 503 and no increment, and a handler on an empty script still
decrements exactly once. -/
theorem active_count_invariant_witness :
    0 ≤ (runLifecycle 1 (0, 0)
      [ConnEvent.connect, ConnEvent.connect, ConnEvent.finish]).1 ∧
    admissionStep 1 1 = (1, some handlers_service_unavailable, false) ∧
    countEff Effect.decrementActive (handlerEffects cfgKA (some root0) fs0 0 []) = 1 :=
  ⟨((active_count_invariant 1
      [ConnEvent.connect, ConnEvent.connect, ConnEvent.finish]).1 (by decide)).1,
   (active_count_invariant 1 []).2.1 1 (by decide),
   ((active_count_invariant 1 []).2.2.2 cfgKA (some root0) fs0 0 []).1⟩

end Vibettp
